import Mathlib

/-!
Shallow embedding of the fusabi-host governance layer (Rust) in Lean 4,
with theorems checking the natural-language specification against the code.

Modelling conventions:
- Rust `u64`/`usize` counters are modelled as `Nat`; the only arithmetic the
  claims exercise is addition and comparison far below the machine range.
  Where overflow is semantically relevant (the FNV-1a hash `wrapping_mul`)
  the reduction `% 2 ^ 64` is explicit.
- Rust `String`/`&str` values are modelled as `List Char` (`Str` below);
  `str::to_lowercase` is modelled per character, which agrees with Rust on
  ASCII input.
- Fallible Rust functions returning `Result<T, E>` become `Except`-valued
  functions; methods on `&mut self` return the updated value explicitly.
- Error message payloads (`String` arguments of error constructors) are
  elided: no claim depends on message text, only on the error's variant.
- Wall-clock time (`Instant::elapsed`) is an oracle: functions that consult
  it take the elapsed duration (in nanoseconds, as `Nat`) as an argument.
-/

namespace FusabiHost

/-- Rust string slices, modelled as their character sequence. -/
abbrev Str := List Char

/-! ## `src/limits.rs` -/

/-- `LimitViolation` from `src/limits.rs`.  Durations are nanosecond counts. -/
inductive LimitViolation where
  | timeExceeded (limit actual : Nat)
  | memoryExceeded (limit actual : Nat)
  | instructionsExceeded (limit actual : Nat)
  | stackDepthExceeded (limit actual : Nat)
  | outputSizeExceeded (limit actual : Nat)
  | fsOpsExceeded (limit : Nat)
  | netOpsExceeded (limit : Nat)
  deriving DecidableEq, Repr

/-- `Limits` from `src/limits.rs`: per-resource optional ceilings
(`None` = unlimited). -/
structure Limits where
  timeout : Option Nat
  memory_bytes : Option Nat
  max_instructions : Option Nat
  max_stack_depth : Option Nat
  max_output_bytes : Option Nat
  max_fs_ops : Option Nat
  max_net_ops : Option Nat
  max_concurrent_tasks : Option Nat
  deriving DecidableEq, Repr

/-- `Limits::unlimited`. -/
def Limits.unlimited : Limits :=
  ⟨none, none, none, none, none, none, none, none⟩

/-- `Limits::default` (`Duration::from_secs(30)` as nanoseconds). -/
def Limits.default : Limits :=
  ⟨some (30 * 1000000000), some (64 * 1024 * 1024), some 10000000,
   some 1000, some (1024 * 1024), some 100, some 10, some 16⟩

/-- `Limits::check_time`: violation iff elapsed strictly exceeds the
configured timeout. -/
def Limits.check_time (l : Limits) (elapsed : Nat) :
    Except LimitViolation Unit :=
  match l.timeout with
  | some limit =>
      if elapsed > limit then .error (.timeExceeded limit elapsed) else .ok ()
  | none => .ok ()

/-- `Limits::check_memory`. -/
def Limits.check_memory (l : Limits) (used : Nat) :
    Except LimitViolation Unit :=
  match l.memory_bytes with
  | some limit =>
      if used > limit then .error (.memoryExceeded limit used) else .ok ()
  | none => .ok ()

/-- `Limits::check_instructions`. -/
def Limits.check_instructions (l : Limits) (count : Nat) :
    Except LimitViolation Unit :=
  match l.max_instructions with
  | some limit =>
      if count > limit then .error (.instructionsExceeded limit count)
      else .ok ()
  | none => .ok ()

/-- `Limits::check_stack_depth`. -/
def Limits.check_stack_depth (l : Limits) (depth : Nat) :
    Except LimitViolation Unit :=
  match l.max_stack_depth with
  | some limit =>
      if depth > limit then .error (.stackDepthExceeded limit depth)
      else .ok ()
  | none => .ok ()

/-- `LimitTracker` from `src/limits.rs`.  `start_time` is not part of the
state: `check_timeout` takes the elapsed wall-clock time as an oracle
argument instead. -/
structure LimitTracker where
  limits : Limits
  instructions_executed : Nat
  memory_used : Nat
  current_stack_depth : Nat
  output_bytes : Nat
  fs_ops : Nat
  net_ops : Nat
  deriving DecidableEq, Repr

/-- `LimitTracker::new`: all counters start at zero. -/
def LimitTracker.new (limits : Limits) : LimitTracker :=
  ⟨limits, 0, 0, 0, 0, 0, 0⟩

/-- `LimitTracker::reset`: zero every counter, keep the limits. -/
def LimitTracker.reset (t : LimitTracker) : LimitTracker :=
  LimitTracker.new t.limits

/-- `LimitTracker::check_timeout` (elapsed time supplied by the caller). -/
def LimitTracker.check_timeout (t : LimitTracker) (elapsed : Nat) :
    Except LimitViolation Unit :=
  t.limits.check_time elapsed

/-- `LimitTracker::record_instructions`: accumulate, then check. -/
def LimitTracker.record_instructions (t : LimitTracker) (count : Nat) :
    LimitTracker × Except LimitViolation Unit :=
  let t' := { t with instructions_executed := t.instructions_executed + count }
  (t', t'.limits.check_instructions t'.instructions_executed)

/-- `LimitTracker::record_memory`: replace the current value, then check. -/
def LimitTracker.record_memory (t : LimitTracker) (bytes : Nat) :
    LimitTracker × Except LimitViolation Unit :=
  let t' := { t with memory_used := bytes }
  (t', t'.limits.check_memory t'.memory_used)

/-- `LimitTracker::push_stack`. -/
def LimitTracker.push_stack (t : LimitTracker) :
    LimitTracker × Except LimitViolation Unit :=
  let t' := { t with current_stack_depth := t.current_stack_depth + 1 }
  (t', t'.limits.check_stack_depth t'.current_stack_depth)

/-- `LimitTracker::pop_stack` (saturating at zero). -/
def LimitTracker.pop_stack (t : LimitTracker) : LimitTracker :=
  { t with current_stack_depth := t.current_stack_depth - 1 }

/-- `LimitTracker::record_output`: accumulate, then check inline. -/
def LimitTracker.record_output (t : LimitTracker) (bytes : Nat) :
    LimitTracker × Except LimitViolation Unit :=
  let t' := { t with output_bytes := t.output_bytes + bytes }
  match t'.limits.max_output_bytes with
  | some limit =>
      if t'.output_bytes > limit then
        (t', .error (.outputSizeExceeded limit t'.output_bytes))
      else (t', .ok ())
  | none => (t', .ok ())

/-- `LimitTracker::record_fs_op`: increment, then check inline. -/
def LimitTracker.record_fs_op (t : LimitTracker) :
    LimitTracker × Except LimitViolation Unit :=
  let t' := { t with fs_ops := t.fs_ops + 1 }
  match t'.limits.max_fs_ops with
  | some limit =>
      if t'.fs_ops > limit then (t', .error (.fsOpsExceeded limit))
      else (t', .ok ())
  | none => (t', .ok ())

/-- `LimitTracker::record_net_op`: increment, then check inline. -/
def LimitTracker.record_net_op (t : LimitTracker) :
    LimitTracker × Except LimitViolation Unit :=
  let t' := { t with net_ops := t.net_ops + 1 }
  match t'.limits.max_net_ops with
  | some limit =>
      if t'.net_ops > limit then (t', .error (.netOpsExceeded limit))
      else (t', .ok ())
  | none => (t', .ok ())

/-! Machinery for quantifying over the recording operations of
`LimitTracker` (needed to speak of "every recording operation" at once). -/

/-- One call to a recording operation of `LimitTracker`, with its argument. -/
inductive RecOp where
  | instructions (count : Nat)
  | memory (bytes : Nat)
  | output (bytes : Nat)
  | fsOp
  | netOp
  deriving DecidableEq, Repr

/-- The operation a `RecOp` invokes, forgetting the argument. -/
inductive RecKind where
  | instructions
  | memory
  | output
  | fsOp
  | netOp
  deriving DecidableEq, Repr

/-- Which recording operation a call invokes. -/
def RecOp.kind : RecOp → RecKind
  | .instructions _ => .instructions
  | .memory _ => .memory
  | .output _ => .output
  | .fsOp => .fsOp
  | .netOp => .netOp

/-- The accumulate-and-check operations; `record_memory` instead replaces
its counter. -/
def RecKind.accumulating : RecKind → Bool
  | .memory => false
  | _ => true

/-- Dispatch a recorded call to the corresponding `LimitTracker` method. -/
def LimitTracker.applyRec (t : LimitTracker) :
    RecOp → LimitTracker × Except LimitViolation Unit
  | .instructions c => t.record_instructions c
  | .memory b => t.record_memory b
  | .output b => t.record_output b
  | .fsOp => t.record_fs_op
  | .netOp => t.record_net_op

/-- Run a sequence of recording calls, keeping only the tracker state. -/
def LimitTracker.applyRecList (t : LimitTracker) (ops : List RecOp) :
    LimitTracker :=
  ops.foldl (fun t op => (t.applyRec op).1) t

/-- The counter inspected by a given recording operation. -/
def RecKind.counter : RecKind → LimitTracker → Nat
  | .instructions, t => t.instructions_executed
  | .memory, t => t.memory_used
  | .output, t => t.output_bytes
  | .fsOp, t => t.fs_ops
  | .netOp, t => t.net_ops

/-- The configured ceiling checked by a given recording operation. -/
def RecKind.ceiling : RecKind → Limits → Option Nat
  | .instructions, l => l.max_instructions
  | .memory, l => l.memory_bytes
  | .output, l => l.max_output_bytes
  | .fsOp, l => l.max_fs_ops
  | .netOp, l => l.max_net_ops

/-- Whether a recording call reported a `LimitViolation`. -/
def isViolation : Except LimitViolation Unit → Bool
  | .error _ => true
  | .ok _ => false

/-! Lemmas about the recording operations. -/

theorem ite_err_eq_ok_iff {P : Prop} [Decidable P] (e : LimitViolation) :
    ((if P then Except.error e else Except.ok ()) = Except.ok ()) ↔ ¬P := by
  split <;> simp_all

theorem ite_pair_err_eq_ok_iff {P : Prop} [Decidable P]
    (a b : LimitTracker) (e : LimitViolation) :
    ((if P then (a, Except.error e) else (b, Except.ok ())).2
      = Except.ok ()) ↔ ¬P := by
  split <;> simp_all

theorem record_output_fst (t : LimitTracker) (b : Nat) :
    (t.record_output b).1 = { t with output_bytes := t.output_bytes + b } := by
  simp only [LimitTracker.record_output]
  (try split) <;> (try split) <;> rfl

theorem record_fs_op_fst (t : LimitTracker) :
    (t.record_fs_op).1 = { t with fs_ops := t.fs_ops + 1 } := by
  simp only [LimitTracker.record_fs_op]
  (try split) <;> (try split) <;> rfl

theorem record_net_op_fst (t : LimitTracker) :
    (t.record_net_op).1 = { t with net_ops := t.net_ops + 1 } := by
  simp only [LimitTracker.record_net_op]
  (try split) <;> (try split) <;> rfl

theorem applyRec_limits (t : LimitTracker) (op : RecOp) :
    (t.applyRec op).1.limits = t.limits := by
  cases op <;>
    simp only [LimitTracker.applyRec, LimitTracker.record_instructions,
      LimitTracker.record_memory, LimitTracker.record_output,
      LimitTracker.record_fs_op, LimitTracker.record_net_op] <;>
    (try split) <;> (try split) <;> rfl

theorem applyRecList_limits (t : LimitTracker) (ops : List RecOp) :
    (t.applyRecList ops).limits = t.limits := by
  induction ops generalizing t with
  | nil => rfl
  | cons op ops ih =>
      simp [LimitTracker.applyRecList] at ih ⊢
      rw [ih, applyRec_limits]

/-- A recording call reports a violation exactly when its counter, after the
call, strictly exceeds its configured ceiling. -/
theorem applyRec_violation_iff (t : LimitTracker) (op : RecOp) :
    isViolation (t.applyRec op).2 = true ↔
      ∃ c, op.kind.ceiling t.limits = some c ∧
        c < op.kind.counter (t.applyRec op).1 := by
  cases op with
  | instructions c =>
      simp only [LimitTracker.applyRec, LimitTracker.record_instructions,
        Limits.check_instructions, RecOp.kind, RecKind.ceiling,
        RecKind.counter]
      cases h : t.limits.max_instructions with
      | none => simp [h, isViolation]
      | some limit =>
          by_cases hlt : limit < t.instructions_executed + c <;>
            simp [h, hlt, isViolation]
  | memory b =>
      simp only [LimitTracker.applyRec, LimitTracker.record_memory,
        Limits.check_memory, RecOp.kind, RecKind.ceiling, RecKind.counter]
      cases h : t.limits.memory_bytes with
      | none => simp [h, isViolation]
      | some limit =>
          by_cases hlt : limit < b <;> simp [h, hlt, isViolation]
  | output b =>
      simp only [LimitTracker.applyRec, LimitTracker.record_output,
        RecOp.kind, RecKind.ceiling, RecKind.counter]
      cases h : t.limits.max_output_bytes with
      | none => simp [h, isViolation]
      | some limit =>
          by_cases hlt : limit < t.output_bytes + b <;>
            simp [h, hlt, isViolation]
  | fsOp =>
      simp only [LimitTracker.applyRec, LimitTracker.record_fs_op,
        RecOp.kind, RecKind.ceiling, RecKind.counter]
      cases h : t.limits.max_fs_ops with
      | none => simp [h, isViolation]
      | some limit =>
          by_cases hlt : limit < t.fs_ops + 1 <;> simp [h, hlt, isViolation]
  | netOp =>
      simp only [LimitTracker.applyRec, LimitTracker.record_net_op,
        RecOp.kind, RecKind.ceiling, RecKind.counter]
      cases h : t.limits.max_net_ops with
      | none => simp [h, isViolation]
      | some limit =>
          by_cases hlt : limit < t.net_ops + 1 <;> simp [h, hlt, isViolation]

/-- Any recording call leaves the counters of the accumulating operations
at least as large as before. -/
theorem applyRec_counter_mono (t : LimitTracker) (op : RecOp) (k : RecKind)
    (hacc : k.accumulating = true) :
    k.counter t ≤ k.counter (t.applyRec op).1 := by
  cases k <;> simp [RecKind.accumulating] at hacc ⊢ <;>
    cases op <;>
      simp [LimitTracker.applyRec, LimitTracker.record_instructions,
        LimitTracker.record_memory, record_output_fst, record_fs_op_fst,
        record_net_op_fst, RecKind.counter] <;>
      omega

theorem applyRecList_counter_mono (t : LimitTracker) (ops : List RecOp)
    (k : RecKind) (hacc : k.accumulating = true) :
    k.counter t ≤ k.counter (t.applyRecList ops) := by
  induction ops generalizing t with
  | nil => exact Nat.le_refl _
  | cons op ops ih =>
      calc k.counter t ≤ k.counter (t.applyRec op).1 :=
            applyRec_counter_mono t op k hacc
        _ ≤ k.counter ((t.applyRec op).1.applyRecList ops) :=
            ih (t.applyRec op).1
        _ = k.counter (t.applyRecList (op :: ops)) := rfl

/-- **C3 (corrected), counterexample.** The claim fails for `record_memory`:
with a memory ceiling of 10 bytes, `record_memory 11` reports a violation
and the immediately following `record_memory 5` on the same tracker, with no
intervening reset, succeeds — the memory counter is replaced, not
accumulated, so it recovers silently. -/
theorem record_memory_recovers_counterexample :
    isViolation
      ((LimitTracker.new ⟨none, some 10, none, none, none, none, none, none⟩
        ).record_memory 11).2 = true ∧
    (((LimitTracker.new ⟨none, some 10, none, none, none, none, none, none⟩
        ).record_memory 11).1.record_memory 5).2 = .ok () :=
  ⟨rfl, rfl⟩

/-- **C3 (amended).** For every accumulate-and-check recording operation
(`record_instructions`, `record_output`, `record_fs_op`, `record_net_op`):
once a call to that operation has reported a `LimitViolation`, every later
call to the same operation on the same tracker — with no intervening reset,
and regardless of any other recording calls in between — also reports a
violation; there is no silent recovery.  (`record_memory` is excluded: it
replaces its counter and can recover, as the counterexample shows.) -/
theorem limit_tracker_no_silent_recovery (t : LimitTracker) (op : RecOp)
    (hacc : op.kind.accumulating = true)
    (herr : isViolation (t.applyRec op).2 = true)
    (ops : List RecOp) (op' : RecOp) (hk : op'.kind = op.kind) :
    isViolation (((t.applyRec op).1.applyRecList ops).applyRec op').2
      = true := by
  obtain ⟨c, hceil, hlt⟩ := (applyRec_violation_iff t op).1 herr
  refine (applyRec_violation_iff _ op').2 ⟨c, ?_, ?_⟩
  · rw [hk, applyRecList_limits, applyRec_limits]
    exact hceil
  · calc c < op.kind.counter (t.applyRec op).1 := hlt
      _ ≤ op.kind.counter ((t.applyRec op).1.applyRecList ops) :=
          applyRecList_counter_mono _ ops _ hacc
      _ ≤ op.kind.counter
            (((t.applyRec op).1.applyRecList ops).applyRec op').1 := by
          rw [← hk]
          exact applyRec_counter_mono _ op' _ (hk ▸ hacc)
      _ = op'.kind.counter
            (((t.applyRec op).1.applyRecList ops).applyRec op').1 := by
          rw [hk]

/-- Witness for the amended C3 theorem at a concrete input: a tracker with a
filesystem-operation ceiling of 0 violates on the first `record_fs_op` and
still violates after an intervening `record_memory 3` call. -/
theorem limit_tracker_no_silent_recovery_witness :
    isViolation
      ((((LimitTracker.new
            ⟨none, none, none, none, none, some 0, none, none⟩
          ).applyRec .fsOp).1.applyRecList [.memory 3]).applyRec .fsOp).2
      = true :=
  limit_tracker_no_silent_recovery
    (LimitTracker.new ⟨none, none, none, none, none, some 0, none, none⟩)
    .fsOp (by decide) (by decide) [.memory 3] .fsOp (by decide)

/-- **C10.** All limit comparisons are strict: each check or recording
operation succeeds exactly when the observed or accumulated value is at
most the configured ceiling, so a value exactly equal to the ceiling is
never a violation. -/
theorem limit_comparisons_strict (l : Limits) (t : LimitTracker)
    (v c : Nat) :
    (l.timeout = some c → (l.check_time v = .ok () ↔ v ≤ c))
    ∧ (l.memory_bytes = some c → (l.check_memory v = .ok () ↔ v ≤ c))
    ∧ (l.max_instructions = some c →
        (l.check_instructions v = .ok () ↔ v ≤ c))
    ∧ (l.max_stack_depth = some c →
        (l.check_stack_depth v = .ok () ↔ v ≤ c))
    ∧ (t.limits.max_output_bytes = some c →
        ((t.record_output v).2 = .ok () ↔ t.output_bytes + v ≤ c))
    ∧ (t.limits.max_fs_ops = some c →
        ((t.record_fs_op).2 = .ok () ↔ t.fs_ops + 1 ≤ c))
    ∧ (t.limits.max_net_ops = some c →
        ((t.record_net_op).2 = .ok () ↔ t.net_ops + 1 ≤ c)) := by
  refine ⟨fun h => ?_, fun h => ?_, fun h => ?_, fun h => ?_,
    fun h => ?_, fun h => ?_, fun h => ?_⟩ <;>
    simp [Limits.check_time, Limits.check_memory, Limits.check_instructions,
      Limits.check_stack_depth, LimitTracker.record_output,
      LimitTracker.record_fs_op, LimitTracker.record_net_op, h,
      ite_err_eq_ok_iff, ite_pair_err_eq_ok_iff] <;>
    omega

/-- Witness for C10 at concrete inputs: with every ceiling set to 5, an
observed value of exactly 5 is accepted by `check_time` and by
`record_output` on a fresh tracker. -/
theorem limit_comparisons_strict_witness :
    (Limits.check_time ⟨some 5, some 5, some 5, some 5, some 5, some 5,
        some 5, some 5⟩ 5 = .ok ())
    ∧ ((LimitTracker.new ⟨some 5, some 5, some 5, some 5, some 5, some 5,
        some 5, some 5⟩).record_output 5).2 = .ok () := by
  have h := limit_comparisons_strict
    ⟨some 5, some 5, some 5, some 5, some 5, some 5, some 5, some 5⟩
    (LimitTracker.new ⟨some 5, some 5, some 5, some 5, some 5, some 5,
      some 5, some 5⟩) 5 5
  exact ⟨(h.1 rfl).2 (by decide), ((h.2.2.2.2.1 rfl).2 (by decide))⟩

/-! ## `src/error.rs`

`Error` from `src/error.rs`.  `String` message payloads are elided (no claim
depends on message text); payloads that a claim can observe (`count`, the
wrapped `LimitViolation`, the timeout duration) are kept. -/

inductive ErrorM where
  | compilation
  | runtime
  | limitViolation (v : LimitViolation)
  | valueConversion
  | capabilityDenied
  | sandboxViolation
  | poolExhausted (count : Nat)
  | poolTimeout
  | poolShutdown
  | enginePoisoned
  | io
  | invalidConfig
  | versionMismatch
  | hostFunction
  | invalidBytecode
  | timeout (nanos : Nat)
  | cancelled
  | internal
  deriving DecidableEq, Repr

/-! ## `src/sandbox.rs` -/

/-- `PathPolicy` from `src/sandbox.rs`.  Its `is_allowed` consults
`Path::canonicalize` (filesystem I/O) and is not needed by any claim, so it
is not modelled. -/
inductive PathPolicy where
  | denyAll
  | allowList (paths : List Str)
  | denyList (paths : List Str)
  | allowAll
  deriving DecidableEq, Repr

/-- `NetPolicy` from `src/sandbox.rs`.  The `HashSet<String>` of entries is
modelled as a list (only membership-style `any` is used). -/
inductive NetPolicy where
  | denyAll
  | allowList (hosts : List Str)
  | denyList (hosts : List Str)
  | allowAll
  deriving DecidableEq, Repr

/-- `str::to_lowercase`, per character (agrees with Rust on ASCII). -/
def strLower (s : Str) : Str := s.map Char.toLower

/-- The per-entry test inside `NetPolicy::is_allowed`: lower-case the entry;
a `*.`-entry matches via its suffix `&a_lower[1..]` (i.e. `"." ++ domain`)
or equality with `&a_lower[2..]` (the bare domain); any other entry matches
by equality. -/
def netEntryMatches (a host_lower : Str) : Bool :=
  match strLower a with
  | '*' :: '.' :: bare =>
      ('.' :: bare).isSuffixOf host_lower || host_lower == bare
  | a_lower => host_lower == a_lower

/-- `NetPolicy::is_allowed`. -/
def NetPolicy.is_allowed (p : NetPolicy) (host : Str) : Bool :=
  let host_lower := strLower host
  match p with
  | .denyAll => false
  | .allowAll => true
  | .allowList allowed => allowed.any (fun a => netEntryMatches a host_lower)
  | .denyList denied => !(denied.any (fun d => netEntryMatches d host_lower))

/-- `SandboxConfig` from `src/sandbox.rs`. -/
structure SandboxConfig where
  fs_read : PathPolicy
  fs_write : PathPolicy
  net_outgoing : NetPolicy
  net_incoming : NetPolicy
  env_vars : Option (List Str)
  working_dir : Option Str
  isolate_temp : Bool
  deriving DecidableEq, Repr

/-- `SandboxConfig::locked`. -/
def SandboxConfig.locked : SandboxConfig :=
  ⟨.denyAll, .denyAll, .denyAll, .denyAll, some [], none, true⟩

/-- `SandboxConfig::permissive`. -/
def SandboxConfig.permissive : SandboxConfig :=
  ⟨.allowAll, .allowAll, .allowAll, .allowAll, none, none, false⟩

/-- `SandboxConfig::default` (`#[derive(Default)]`: deny-all policies,
`env_vars = None`, no working dir, no temp isolation). -/
def SandboxConfig.default : SandboxConfig :=
  ⟨.denyAll, .denyAll, .denyAll, .denyAll, none, none, false⟩

/-- `SandboxConfig::with_env_vars`. -/
def SandboxConfig.with_env_vars (c : SandboxConfig) (vars : List Str) :
    SandboxConfig :=
  { c with env_vars := some vars }

/-- `SandboxConfig::can_connect`. -/
def SandboxConfig.can_connect (c : SandboxConfig) (host : Str) : Bool :=
  c.net_outgoing.is_allowed host

/-- `SandboxConfig::can_access_env`: `None` allow-set permits everything;
`Some(set)` permits exactly the members. -/
def SandboxConfig.can_access_env (c : SandboxConfig) (name : Str) : Bool :=
  match c.env_vars with
  | none => true
  | some allowed => allowed.contains name

/-- `Sandbox` from `src/sandbox.rs`: the configuration plus the isolated
temp directory path, if one was created. -/
structure Sandbox where
  config : SandboxConfig
  temp_dir : Option Str
  deriving DecidableEq, Repr

/-- The directory path `Sandbox::new` derives when isolation is requested:
`std::env::temp_dir().join(format!("fusabi-sandbox-{}", std::process::id()))`.
The ambient system temp directory and the process id are explicit
arguments.  Note the path depends on nothing but these two ambient values. -/
def sandboxTempPath (tempBase : Str) (pid : Nat) : Str :=
  tempBase ++ '/' :: "fusabi-sandbox-".toList ++ (Nat.repr pid).toList

/-- `Sandbox::new`.  The `create_dir_all` side effect is not modelled; the
computed `temp_dir` path is.  (`Drop` best-effort removes exactly this
path via `remove_dir_all`.) -/
def Sandbox.new (config : SandboxConfig) (tempBase : Str) (pid : Nat) :
    Sandbox :=
  { config,
    temp_dir :=
      if config.isolate_temp then some (sandboxTempPath tempBase pid)
      else none }

/-- `Sandbox::check_env`. -/
def Sandbox.check_env (s : Sandbox) (name : Str) : Except ErrorM Unit :=
  if s.config.can_access_env name then .ok () else .error .sandboxViolation

/-- `Sandbox::check_connect`. -/
def Sandbox.check_connect (s : Sandbox) (host : Str) : Except ErrorM Unit :=
  if s.config.can_connect host then .ok () else .error .sandboxViolation

/-- **C7.** With an absent (`None`) env allow-set, `can_access_env` permits
every variable name and `check_env` succeeds; with `Some(set)`,
`can_access_env` returns `true` exactly on members of the set. -/
theorem can_access_env_spec (c : SandboxConfig) (sb : Sandbox) (s : Str) :
    (c.env_vars = none → c.can_access_env s = true)
    ∧ (sb.config.env_vars = none → sb.check_env s = .ok ())
    ∧ (∀ set, c.env_vars = some set →
        (c.can_access_env s = true ↔ s ∈ set)) := by
  refine ⟨fun h => ?_, fun h => ?_, fun set h => ?_⟩
  · simp [SandboxConfig.can_access_env, h]
  · simp [Sandbox.check_env, SandboxConfig.can_access_env, h]
  · simp [SandboxConfig.can_access_env, h, List.contains]

/-- Witness for C7 at concrete inputs: the permissive config (no allow-set)
grants `PATH`, and an allow-set `{HOME}` grants `HOME` but not `SECRET`. -/
theorem can_access_env_spec_witness :
    SandboxConfig.permissive.can_access_env "PATH".toList = true
    ∧ (SandboxConfig.locked.with_env_vars ["HOME".toList]
        ).can_access_env "HOME".toList = true := by
  constructor
  · exact (can_access_env_spec SandboxConfig.permissive
      ⟨SandboxConfig.permissive, none⟩ "PATH".toList).1 rfl
  · exact ((can_access_env_spec
      (SandboxConfig.locked.with_env_vars ["HOME".toList])
      ⟨SandboxConfig.permissive, none⟩ "HOME".toList).2.2
      ["HOME".toList] rfl).2 (by decide)

/-- **C8.** An allow-list entry `*.d` permits exactly those hosts that,
lower-cased, equal the bare domain `d` or end with `"." ++ d`; concretely
`NetPolicy::allow(["*.trusted.org"])` permits `trusted.org` and
`api.trusted.org` and rejects `nottrusted.org`. -/
theorem net_wildcard_entry_spec (d host : Str) :
    (NetPolicy.is_allowed (.allowList ['*' :: '.' :: d]) host = true ↔
      strLower host = strLower d ∨ ('.' :: strLower d) <:+ strLower host)
    ∧ NetPolicy.is_allowed (.allowList ["*.trusted.org".toList])
        "trusted.org".toList = true
    ∧ NetPolicy.is_allowed (.allowList ["*.trusted.org".toList])
        "api.trusted.org".toList = true
    ∧ NetPolicy.is_allowed (.allowList ["*.trusted.org".toList])
        "nottrusted.org".toList = false := by
  refine ⟨?_, by decide, by decide, by decide⟩
  have hstar : Char.toLower '*' = '*' := by decide
  have hdot : Char.toLower '.' = '.' := by decide
  simp only [NetPolicy.is_allowed, netEntryMatches, strLower, List.map_cons,
    hstar, hdot, List.any_cons, List.any_nil, Bool.or_false]
  rw [Bool.or_comm]
  rw [Bool.or_eq_true, beq_iff_eq, List.isSuffixOf_iff_suffix]

/-- Witness for C8 (the universally quantified part has no hypothesis to
discharge, but the theorem is applied at a concrete domain and host): the
wildcard entry for domain `d = "x.y"` permits host `"A.x.y"`. -/
theorem net_wildcard_entry_spec_witness :
    NetPolicy.is_allowed (.allowList ['*' :: '.' :: "x.y".toList])
      "A.x.y".toList = true :=
  ((net_wildcard_entry_spec "x.y".toList "A.x.y".toList).1).2
    (.inr (by decide))

/-- **C9 (code bug).** `Sandbox::new` derives the isolated temp directory
path from the process id alone, so two simultaneously live sandboxes in the
same process share the same directory path, contradicting the required
per-instance uniqueness: here a locked config and a distinct
isolation-requesting config, in process 4242 with system temp `/tmp`, both
receive `/tmp/fusabi-sandbox-4242`. -/
theorem sandbox_temp_dir_shared_in_process :
    (Sandbox.new SandboxConfig.locked "/tmp".toList 4242).temp_dir
      = (Sandbox.new
          ⟨.allowAll, .allowAll, .allowAll, .allowAll, none, none, true⟩
          "/tmp".toList 4242).temp_dir
    ∧ (Sandbox.new SandboxConfig.locked "/tmp".toList 4242).temp_dir
      = some "/tmp/fusabi-sandbox-4242".toList := by
  constructor <;> rfl

/-! ## `src/value.rs` -/

/-- `Value` from `src/value.rs`, restricted to the variants reachable from
the modelled operations (`simulate_execution` produces only `Null`, `Bool`,
`Int`, `Float`, `String`).  `f64` payloads are kept as the source text that
parsed as a float: no claim inspects a float's numeric value. -/
inductive ValueM where
  | null
  | bool (b : Bool)
  | int (n : Int)
  | float (repr : Str)
  | str (s : Str)
  deriving DecidableEq, Repr

/-! ## UTF-8 and parsing helpers used by `src/engine.rs` / `src/compile.rs` -/

/-- The UTF-8 encoding of one character (`str::bytes` / `str::len` in Rust
count these bytes). -/
def utf8EncodeChar (c : Char) : List Nat :=
  let n := c.toNat
  if n < 0x80 then [n]
  else if n < 0x800 then [0xC0 + n / 64, 0x80 + n % 64]
  else if n < 0x10000 then
    [0xE0 + n / 4096, 0x80 + (n / 64) % 64, 0x80 + n % 64]
  else
    [0xF0 + n / 262144, 0x80 + (n / 4096) % 64, 0x80 + (n / 64) % 64,
     0x80 + n % 64]

/-- The UTF-8 byte sequence of a string (`str::as_bytes`). -/
def utf8Bytes (s : Str) : List Nat :=
  s.foldr (fun c acc => utf8EncodeChar c ++ acc) []

/-- `str::len`: the UTF-8 byte length. -/
def utf8Len (s : Str) : Nat := (utf8Bytes s).length

/-- `str::trim` (ASCII-faithful: Lean's `Char.isWhitespace` agrees with
Rust's `char::is_whitespace` on ASCII input). -/
def trimStr (s : Str) : Str :=
  ((s.dropWhile Char.isWhitespace).reverse.dropWhile Char.isWhitespace
    ).reverse

/-- `str::parse::<i64>`: optional sign, one or more ASCII digits, value in
the `i64` range. -/
def parseI64 (s : Str) : Option Int :=
  let core : Int → Str → Option Int := fun sign digits =>
    if digits.isEmpty || !digits.all Char.isDigit then none
    else
      let n : Nat := digits.foldl (fun a c => a * 10 + (c.toNat - 48)) 0
      let v : Int := sign * (n : Int)
      if -(2 ^ 63) ≤ v ∧ v < 2 ^ 63 then some v else none
  match s with
  | '+' :: rest => core 1 rest
  | '-' :: rest => core (-1) rest
  | _ => core 1 s

/-- Nonempty all-digit run. -/
def isDigits (l : Str) : Bool := !l.isEmpty && l.all Char.isDigit

/-- Mantissa of a decimal float literal: `Digits ['.' Digits?] | '.' Digits`. -/
def mantissaOk (m : Str) : Bool :=
  let ip := m.takeWhile Char.isDigit
  match m.drop ip.length with
  | [] => !ip.isEmpty
  | '.' :: fp => (!ip.isEmpty || !fp.isEmpty) && fp.all Char.isDigit
  | _ => false

/-- Exponent part of a float literal: optional sign then digits. -/
def expPartOk (e : Str) : Bool :=
  match e with
  | '+' :: ds => isDigits ds
  | '-' :: ds => isDigits ds
  | ds => isDigits ds

/-- Acceptance of `str::parse::<f64>` (approximated: optional sign, then
`inf`/`infinity`/`nan` case-insensitively or a decimal literal with
optional exponent).  Only the accept/reject decision is modelled — the
float value itself is out of scope, and no theorem below depends on this
branch of `simulate_execution`. -/
def parseF64ok (s : Str) : Bool :=
  let body := match s with
    | '+' :: r => r
    | '-' :: r => r
    | r => r
  let lower := strLower body
  if lower == "inf".toList || lower == "infinity".toList
      || lower == "nan".toList then true
  else
    match body.findIdx? (fun c => c == 'e' || c == 'E') with
    | none => mantissaOk body
    | some i => mantissaOk (body.take i) && expPartOk (body.drop (i + 1))

/-! ## `src/engine.rs` -/

/-- `EngineConfig` from `src/engine.rs` (capabilities and metadata are
carried by no claim and are omitted). -/
structure EngineConfig where
  limits : Limits
  sandbox : SandboxConfig
  debug : Bool
  deriving Repr

/-- `EngineConfig::default`. -/
def EngineConfig.default : EngineConfig :=
  ⟨Limits.default, SandboxConfig.default, false⟩

/-- The mutable state of `ExecutionContext` from `src/engine.rs`: the
lock-guarded `LimitTracker`, the scratch (`custom`) key-value map, and the
atomic cancellation flag.  (`engine_id`, the capability set and the
sandbox are immutable and not consulted by any modelled operation;
`start_time` is an oracle.) -/
structure ContextState where
  limit_tracker : LimitTracker
  custom : List (Str × ValueM)
  cancelled : Bool
  deriving DecidableEq, Repr

/-- `ExecutionContext::reset`: install a fresh `LimitTracker`, clear the
cancellation flag, empty the scratch map. -/
def ContextState.reset (_s : ContextState) (limits : Limits) :
    ContextState :=
  ⟨LimitTracker.new limits, [], false⟩

/-- `Engine` from `src/engine.rs` (id, registry and bytecode cache are not
consulted by any claim). -/
structure EngineM where
  config : EngineConfig
  ctx : ContextState
  deriving Repr

/-- `Engine::new` with the given configuration: a fresh context. -/
def EngineM.new (config : EngineConfig) : EngineM :=
  ⟨config, ⟨LimitTracker.new config.limits, [], false⟩⟩

/-- `Engine::cancel` (sets the context's atomic cancellation flag). -/
def EngineM.cancel (e : EngineM) : EngineM :=
  { e with ctx := { e.ctx with cancelled := true } }

/-- `Engine::simulate_execution`: check the timeout, record
`source.len() * 10` instructions, then evaluate the trivial expression
grammar (in source order: `i64`, `f64`, quoted string, `+` of two `i64`,
boolean/null literals, default `Null`). -/
def simulate_execution (ctx : ContextState) (source : Str) (elapsed : Nat) :
    ContextState × Except ErrorM ValueM :=
  match ctx.limit_tracker.check_timeout elapsed with
  | .error v => (ctx, .error (.limitViolation v))
  | .ok () =>
    let r := ctx.limit_tracker.record_instructions (utf8Len source * 10)
    let ctx1 := { ctx with limit_tracker := r.1 }
    match r.2 with
    | .error v => (ctx1, .error (.limitViolation v))
    | .ok () =>
      let trimmed := trimStr source
      match parseI64 trimmed with
      | some n => (ctx1, .ok (.int n))
      | none =>
        if parseF64ok trimmed then (ctx1, .ok (.float trimmed))
        else if trimmed.head? == some '"' && trimmed.getLast? == some '"'
            && trimmed.length > 1 then
          (ctx1, .ok (.str ((trimmed.drop 1).dropLast)))
        else
          let left := trimmed.takeWhile (fun c => c != '+')
          if left.length < trimmed.length then
            match parseI64 (trimStr left),
                parseI64 (trimStr (trimmed.drop (left.length + 1))) with
            | some l, some r => (ctx1, .ok (.int (l + r)))
            | _, _ =>
                if trimmed == "true".toList then (ctx1, .ok (.bool true))
                else if trimmed == "false".toList then
                  (ctx1, .ok (.bool false))
                else if trimmed == "null".toList
                    || trimmed == "nil".toList then (ctx1, .ok .null)
                else (ctx1, .ok .null)
          else
            if trimmed == "true".toList then (ctx1, .ok (.bool true))
            else if trimmed == "false".toList then (ctx1, .ok (.bool false))
            else if trimmed == "null".toList || trimmed == "nil".toList then
              (ctx1, .ok .null)
            else (ctx1, .ok .null)

/-- `Engine::execute`: observe a pre-existing cancellation *before* reset,
then reset the context and run the simulated interpretation. -/
def EngineM.execute (e : EngineM) (source : Str) (elapsed : Nat) :
    ContextState × Except ErrorM ValueM :=
  if e.ctx.cancelled then (e.ctx, .error .cancelled)
  else simulate_execution (e.ctx.reset e.config.limits) source elapsed

/-- The 4-byte bytecode magic `b"FZB\x00"`. -/
def fzbMagic : List Nat := [0x46, 0x5A, 0x42, 0x00]

/-- `Engine::simulate_bytecode_execution`: check the timeout, record 100
instructions, return `Null` (the bytecode payload is ignored). -/
def simulate_bytecode_execution (ctx : ContextState) (_b : List Nat)
    (elapsed : Nat) : ContextState × Except ErrorM ValueM :=
  match ctx.limit_tracker.check_timeout elapsed with
  | .error v => (ctx, .error (.limitViolation v))
  | .ok () =>
    let r := ctx.limit_tracker.record_instructions 100
    let ctx1 := { ctx with limit_tracker := r.1 }
    match r.2 with
    | .error v => (ctx1, .error (.limitViolation v))
    | .ok () => (ctx1, .ok .null)

/-- `Engine::execute_bytecode`: cancellation check, reset, then the header
check `bytecode.len() < 8 || &bytecode[0..4] != b"FZB\x00"` (note: length
8, not 16, and no version inspection on this path). -/
def EngineM.execute_bytecode (e : EngineM) (b : List Nat) (elapsed : Nat) :
    ContextState × Except ErrorM ValueM :=
  if e.ctx.cancelled then (e.ctx, .error .cancelled)
  else
    let ctx1 := e.ctx.reset e.config.limits
    if b.length < 8 || b.take 4 != fzbMagic then
      (ctx1, .error .invalidBytecode)
    else simulate_bytecode_execution ctx1 b elapsed

/-- Whether an execution result is the `InvalidBytecode` error. -/
def isInvalidBytecodeResult : Except ErrorM ValueM → Bool
  | .error .invalidBytecode => true
  | _ => false

/-- **C2.** A set cancellation flag makes `execute` (and
`execute_bytecode`) return `Cancelled` before any reset: the full context
state — limit-tracker counters, scratch map and the flag itself — is
returned unchanged; in particular `cancel()` followed immediately by
`execute` yields `Cancelled`. -/
theorem execute_cancelled_before_reset (e : EngineM) (source : Str)
    (b : List Nat) (elapsed : Nat) (h : e.ctx.cancelled = true) :
    e.execute source elapsed = (e.ctx, .error .cancelled)
    ∧ e.execute_bytecode b elapsed = (e.ctx, .error .cancelled)
    ∧ ∀ e' : EngineM,
        (e'.cancel).execute source elapsed
          = ((e'.cancel).ctx, .error .cancelled) := by
  refine ⟨?_, ?_, fun e' => ?_⟩
  · simp [EngineM.execute, h]
  · simp [EngineM.execute_bytecode, h]
  · simp [EngineM.execute, EngineM.cancel]

/-- Witness for C2: a freshly constructed default-config engine, once
cancelled, returns `Cancelled` from `execute("42")` with its context
intact. -/
theorem execute_cancelled_before_reset_witness :
    ((EngineM.new EngineConfig.default).cancel).execute "42".toList 0
      = (((EngineM.new EngineConfig.default).cancel).ctx,
          .error .cancelled) :=
  (execute_cancelled_before_reset
    ((EngineM.new EngineConfig.default).cancel) "42".toList [] 0 rfl).1

/-- `simulate_bytecode_execution` can fail only with a `LimitViolation`,
never with `InvalidBytecode`. -/
theorem simulate_bytecode_not_invalid (ctx : ContextState) (b : List Nat)
    (elapsed : Nat) :
    isInvalidBytecodeResult (simulate_bytecode_execution ctx b elapsed).2
      = false := by
  simp only [simulate_bytecode_execution]
  (try split) <;> (try split) <;> rfl

/-- **C5.** When the engine is not already cancelled, `execute_bytecode(b)`
fails with `InvalidBytecode` exactly when `b` has fewer than 8 bytes or
its first four bytes differ from `b"FZB\x00"`; the version byte plays no
role in this condition. -/
theorem execute_bytecode_invalid_iff (e : EngineM) (b : List Nat)
    (elapsed : Nat) (h : e.ctx.cancelled = false) :
    isInvalidBytecodeResult ((e.execute_bytecode b elapsed).2) = true ↔
      b.length < 8 ∨ b.take 4 ≠ fzbMagic := by
  simp only [EngineM.execute_bytecode, h, Bool.false_eq_true, if_false]
  by_cases hb : b.length < 8 ∨ b.take 4 ≠ fzbMagic
  · have hb' : (decide (b.length < 8) || (b.take 4 != fzbMagic)) = true := by
      simp [bne_iff_ne]
      exact hb
    simp [hb', hb, isInvalidBytecodeResult]
  · have hb' : (decide (b.length < 8) || (b.take 4 != fzbMagic)) = false := by
      simp [bne_iff_ne]
      push_neg at hb
      exact ⟨by omega, hb.2⟩
    simp [hb', hb, simulate_bytecode_not_invalid]

/-- Witness for C5: with a fresh (uncancelled) default engine, a 7-byte
buffer with good magic is rejected as `InvalidBytecode`, while an 8-byte
buffer with good magic and version byte 99 is *not* an `InvalidBytecode`
failure (the version byte is not examined on this path). -/
theorem execute_bytecode_invalid_iff_witness :
    isInvalidBytecodeResult
      (((EngineM.new EngineConfig.default).execute_bytecode
        [0x46, 0x5A, 0x42, 0x00, 99, 0, 0] 0).2) = true
    ∧ isInvalidBytecodeResult
      (((EngineM.new EngineConfig.default).execute_bytecode
        [0x46, 0x5A, 0x42, 0x00, 99, 0, 0, 0] 0).2) = false := by
  constructor
  · exact (execute_bytecode_invalid_iff (EngineM.new EngineConfig.default)
      [0x46, 0x5A, 0x42, 0x00, 99, 0, 0] 0 rfl).2 (by decide)
  · have h := execute_bytecode_invalid_iff (EngineM.new EngineConfig.default)
      [0x46, 0x5A, 0x42, 0x00, 99, 0, 0, 0] 0 rfl
    refine Bool.eq_false_iff.mpr fun hl => ?_
    have := h.1 hl
    revert this
    decide

/-! ## `src/compile.rs` -/

/-- `CompileOptions` from `src/compile.rs` (the fields consulted by
`generate_bytecode`; `target_version`, custom flags and `source_name` feed
only metadata, which no claim inspects). -/
structure CompileOptions where
  opt_level : Nat
  debug_info : Bool
  strip : Bool
  deriving DecidableEq, Repr

/-- `CompileOptions::default`. -/
def CompileOptions.default : CompileOptions := ⟨0, false, false⟩

/-- `simple_hash`: FNV-1a over the UTF-8 bytes, with the 64-bit
`wrapping_mul` made explicit as a reduction mod `2 ^ 64`. -/
def simple_hash (s : Str) : Nat :=
  (utf8Bytes s).foldl
    (fun hash byte => ((hash ^^^ byte) * 0x100000001b3) % 2 ^ 64)
    0xcbf29ce484222325

/-- `u64::to_le_bytes`. -/
def leBytes8 (n : Nat) : List Nat :=
  [n % 256, n / 256 % 256, n / 256 ^ 2 % 256, n / 256 ^ 3 % 256,
   n / 256 ^ 4 % 256, n / 256 ^ 5 % 256, n / 256 ^ 6 % 256,
   n / 256 ^ 7 % 256]

/-- The flags byte of `generate_bytecode`: bit 0 `debug_info`, bit 1
`strip`, bits 4–5 `opt_level & 0x03`. -/
def byteFlags (o : CompileOptions) : Nat :=
  ((if o.debug_info then 1 else 0) |||
   (if o.strip then 2 else 0)) ||| ((o.opt_level % 256) &&& 0x03) <<< 4

/-- `generate_bytecode`: the pushes in source order — 4-byte magic
`b"FZB\x00"`, version byte 1, flags byte, 10 reserved zero bytes, the
8-byte little-endian source hash, then the raw source bytes. -/
def generate_bytecode (source : Str) (o : CompileOptions) : List Nat :=
  0x46 :: 0x5A :: 0x42 :: 0x00 :: 1 :: byteFlags o ::
    (List.replicate 10 0 ++ leBytes8 (simple_hash source)
      ++ utf8Bytes source)

/-- `compile_source`: reject empty/whitespace-only source with a
compilation error, else produce the generated bytecode.  (Metadata,
warnings and statistics are also produced by the Rust function; no claim
consults them, so only the bytecode is carried.) -/
def compile_source (source : Str) (o : CompileOptions) :
    Except ErrorM (List Nat) :=
  if (trimStr source).isEmpty then .error .compilation
  else .ok (generate_bytecode source o)

/-- `validate_bytecode`: length at least 16, magic `b"FZB\x00"`, version
byte at most 1.  (On success Rust returns a constant `Metadata`, modelled
as `Unit`.)  The index-4 access is written with `getD`; it is guarded by
the length check. -/
def validate_bytecode (b : List Nat) : Except ErrorM Unit :=
  if b.length < 16 then .error .invalidBytecode
  else if b.take 4 != fzbMagic then .error .invalidBytecode
  else if b.getD 4 0 > 1 then .error .invalidBytecode
  else .ok ()

/-- **C4.** `validate_bytecode(b)` fails — always with `InvalidBytecode` —
exactly when `b` is shorter than 16 bytes, or its first four bytes differ
from `b"FZB\x00"`, or its version byte (byte 4) exceeds 1; and every
bytecode produced by `compile_source` on a source that is not empty or
whitespace-only is accepted. -/
theorem validate_bytecode_spec (b : List Nat) (s : Str)
    (o : CompileOptions) :
    (validate_bytecode b = .error .invalidBytecode ↔
      b.length < 16 ∨ b.take 4 ≠ fzbMagic ∨ 1 < b.getD 4 0)
    ∧ (trimStr s ≠ [] →
        compile_source s o = .ok (generate_bytecode s o)
        ∧ validate_bytecode (generate_bytecode s o) = .ok ()) := by
  constructor
  · by_cases h1 : b.length < 16
    · simp [validate_bytecode, h1]
    · by_cases h2 : b.take 4 = fzbMagic
      · by_cases h3 : 1 < b.getD 4 0 <;>
          simp [validate_bytecode, h1, h2, h3]
      · simp [validate_bytecode, h1, h2, bne_iff_ne]
  · intro hs
    have hempty : (trimStr s).isEmpty = false := by
      cases htr : trimStr s with
      | nil => exact absurd htr hs
      | cons c cs => rfl
    refine ⟨by simp [compile_source, hempty], ?_⟩
    have hlen : ¬ (generate_bytecode s o).length < 16 := by
      simp [generate_bytecode, leBytes8, List.length_append]
    have htake : ((generate_bytecode s o).take 4 != fzbMagic) = false := by
      simp [generate_bytecode, fzbMagic, List.take]
    have hver : ¬ (generate_bytecode s o).getD 4 0 > 1 := by
      simp [generate_bytecode, List.getD]
    simp [validate_bytecode, hlen, htake]
    simpa using hver

/-- Witness for C4 at the concrete source `"42"`: compilation with default
options succeeds and its output passes validation. -/
theorem validate_bytecode_spec_witness :
    compile_source "42".toList CompileOptions.default
      = .ok (generate_bytecode "42".toList CompileOptions.default)
    ∧ validate_bytecode
        (generate_bytecode "42".toList CompileOptions.default) = .ok () :=
  (validate_bytecode_spec [] "42".toList CompileOptions.default).2
    (by decide)

/-! ## `src/pool.rs`

The pool is the one deliberately concurrent component, so it is embedded
as a labelled transition system.  Each transition is the visible, atomic
effect of one pool operation as implemented in `src/pool.rs`:

- channel receive / send are atomic on the bounded channel;
- the lazy-creation path loads `created`, guards `created < size`, and
  issues `compare_exchange(created, created + 1)`.  A *successful* CAS
  re-establishes that the current counter equals the loaded value, so a
  successful lazy creation is exactly a step guarded by
  `created < size` that increments `created` — the stale-load window
  collapses for safety purposes because the CAS fails otherwise, and a
  failed CAS changes nothing (the call then falls through to its
  timeout/exhausted error, covered by the failure transitions below.)

The ghost field `engines_created` counts calls to `Engine::new` made on
behalf of the pool (eager pre-creation and successful lazy creations);
`created` is the pool's `AtomicUsize` counter.  Statistics counters are
not modelled — no claim consults them. -/

/-- The pool configuration fields consulted by the claims. -/
structure PoolConfigM where
  size : Nat
  lazy_init : Bool
  deriving DecidableEq, Repr

/-- The shared state of an `EnginePool`: the one-way shutdown flag, the
`created` counter, the number of engines sitting in the bounded channel,
the number of engines owned by live `PoolHandle`s, and the ghost count of
`Engine::new` calls. -/
structure PoolState where
  shutdown : Bool
  created : Nat
  available : Nat
  handles : Nat
  engines_created : Nat
  deriving DecidableEq, Repr

/-- The visible outcome label of one pool operation. -/
inductive PoolEvent where
  | acquire_ok
  | acquire_lazy
  | acquire_timeout
  | acquire_shutdown
  | try_ok
  | try_lazy
  | try_exhausted
  | try_shutdown
  | handle_drop
  | shutdown_call
  deriving DecidableEq, Repr

/-- Whether an event is an `acquire`/`try_acquire` call. -/
def PoolEvent.isAcquire : PoolEvent → Bool
  | .handle_drop | .shutdown_call => false
  | _ => true

/-- The `Result` the caller observes for each event
(`PoolExhausted{count}` carries `config.size`, as in `try_acquire`). -/
def PoolEvent.result (cfg : PoolConfigM) : PoolEvent → Except ErrorM Unit
  | .acquire_ok | .acquire_lazy | .try_ok | .try_lazy => .ok ()
  | .acquire_shutdown | .try_shutdown => .error .poolShutdown
  | .acquire_timeout => .error .poolTimeout
  | .try_exhausted => .error (.poolExhausted cfg.size)
  | .handle_drop | .shutdown_call => .ok ()

/-- One atomic pool operation, from `EnginePool::acquire`,
`EnginePool::try_acquire`, `impl Drop for PoolHandle` and
`EnginePool::shutdown`. -/
inductive PoolStep (cfg : PoolConfigM) :
    PoolState → PoolEvent → PoolState → Prop where
  /-- `acquire`: shutdown flag set, fail `PoolShutdown` immediately. -/
  | acquire_shutdown {s : PoolState} (h : s.shutdown = true) :
      PoolStep cfg s .acquire_shutdown s
  /-- `acquire`: `recv_timeout` yields an engine from the channel. -/
  | acquire_ok {s : PoolState} (h : s.shutdown = false)
      (ha : 0 < s.available) :
      PoolStep cfg s .acquire_ok
        ⟨s.shutdown, s.created, s.available - 1, s.handles + 1,
         s.engines_created⟩
  /-- `acquire`: receive timed out, lazy init enabled, and the
  `compare_exchange` on `created` succeeded (so the loaded value equals
  the current counter and was below capacity): a new engine is built. -/
  | acquire_lazy {s : PoolState} (h : s.shutdown = false)
      (hl : cfg.lazy_init = true) (hc : s.created < cfg.size) :
      PoolStep cfg s .acquire_lazy
        ⟨s.shutdown, s.created + 1, s.available, s.handles + 1,
         s.engines_created + 1⟩
  /-- `acquire`: receive timed out and no lazy slot was claimed
  (lazy init off, counter at capacity, or the CAS lost the race):
  fail `PoolTimeout`, state unchanged. -/
  | acquire_timeout {s : PoolState} (h : s.shutdown = false) :
      PoolStep cfg s .acquire_timeout s
  /-- `try_acquire`: shutdown flag set, fail `PoolShutdown`. -/
  | try_shutdown {s : PoolState} (h : s.shutdown = true) :
      PoolStep cfg s .try_shutdown s
  /-- `try_acquire`: `try_recv` yields an engine. -/
  | try_ok {s : PoolState} (h : s.shutdown = false)
      (ha : 0 < s.available) :
      PoolStep cfg s .try_ok
        ⟨s.shutdown, s.created, s.available - 1, s.handles + 1,
         s.engines_created⟩
  /-- `try_acquire`: empty channel, successful lazy-creation CAS. -/
  | try_lazy {s : PoolState} (h : s.shutdown = false)
      (hl : cfg.lazy_init = true) (hc : s.created < cfg.size) :
      PoolStep cfg s .try_lazy
        ⟨s.shutdown, s.created + 1, s.available, s.handles + 1,
         s.engines_created + 1⟩
  /-- `try_acquire`: empty channel, no lazy slot: fail
  `PoolExhausted{count: size}`, state unchanged. -/
  | try_exhausted {s : PoolState} (h : s.shutdown = false) :
      PoolStep cfg s .try_exhausted s
  /-- `Drop for PoolHandle`: the handle's engine is sent back into the
  channel (statistics updates elided).  Note: no shutdown guard — drops
  proceed after shutdown. -/
  | handle_drop {s : PoolState} (hh : 0 < s.handles) :
      PoolStep cfg s .handle_drop
        ⟨s.shutdown, s.created, s.available + 1, s.handles - 1,
         s.engines_created⟩
  /-- `shutdown`: store `true` into the one-way flag. -/
  | shutdown_call {s : PoolState} :
      PoolStep cfg s .shutdown_call
        ⟨true, s.created, s.available, s.handles, s.engines_created⟩

/-- `EnginePool::new`: eager construction fills the channel with `size`
fresh engines (incrementing `created` for each); lazy construction starts
empty with `created = 0`. -/
def PoolState.init (cfg : PoolConfigM) : PoolState :=
  if cfg.lazy_init then ⟨false, 0, 0, 0, 0⟩
  else ⟨false, cfg.size, cfg.size, 0, cfg.size⟩

/-- Reachability under any interleaving of pool operations. -/
def PoolReach (cfg : PoolConfigM) : PoolState → PoolState → Prop :=
  Relation.ReflTransGen (fun s s' => ∃ e, PoolStep cfg s e s')

/-- The pool's inductive invariant: the ghost engine count equals the
`created` counter, the counter never exceeds capacity, and every engine is
either in the channel or held by exactly one live handle. -/
def PoolInv (cfg : PoolConfigM) (s : PoolState) : Prop :=
  s.engines_created = s.created ∧ s.created ≤ cfg.size ∧
    s.available + s.handles = s.created

theorem poolInv_init (cfg : PoolConfigM) : PoolInv cfg (PoolState.init cfg) := by
  unfold PoolInv PoolState.init
  split <;> simp

theorem poolInv_step {cfg : PoolConfigM} {s s' : PoolState} {e : PoolEvent}
    (hstep : PoolStep cfg s e s') (hinv : PoolInv cfg s) :
    PoolInv cfg s' := by
  obtain ⟨h1, h2, h3⟩ := hinv
  cases hstep <;> constructor <;> simp_all <;> omega

theorem poolInv_reach {cfg : PoolConfigM} {s s' : PoolState}
    (hr : PoolReach cfg s s') (hinv : PoolInv cfg s) : PoolInv cfg s' := by
  induction hr with
  | refl => exact hinv
  | tail _ hstep ih => exact (hstep.elim fun e he => poolInv_step he ih)

/-- **C1.** Starting from a pool constructed with capacity `size`, along
any interleaving of acquire, try_acquire, handle-drop and shutdown
operations, the number of `Engine` instances ever created for the pool
never exceeds the capacity; eager initialization creates exactly `size`
of them up front, and in lazy mode creation happens only through the
CAS-guarded step. -/
theorem pool_never_creates_more_than_capacity (cfg : PoolConfigM)
    (s : PoolState) (hr : PoolReach cfg (PoolState.init cfg) s) :
    s.engines_created ≤ cfg.size
    ∧ (cfg.lazy_init = false →
        (PoolState.init cfg).engines_created = cfg.size)
    ∧ (cfg.lazy_init = true → (PoolState.init cfg).engines_created = 0) := by
  obtain ⟨h1, h2, h3⟩ := poolInv_reach hr (poolInv_init cfg)
  refine ⟨by omega, fun hl => ?_, fun hl => ?_⟩
  · simp [PoolState.init, hl]
  · simp [PoolState.init, hl]

/-- Witness for C1: a lazy pool of capacity 1 that has performed one
successful lazy creation has created exactly one engine, within capacity. -/
theorem pool_never_creates_more_than_capacity_witness :
    (⟨false, 1, 0, 1, 1⟩ : PoolState).engines_created ≤
      (⟨1, true⟩ : PoolConfigM).size :=
  (pool_never_creates_more_than_capacity ⟨1, true⟩ ⟨false, 1, 0, 1, 1⟩
    (Relation.ReflTransGen.single
      ⟨.try_lazy, PoolStep.try_lazy rfl rfl (by decide)⟩)).1

/-- **C6.** Shutdown is one-way and non-disruptive: no pool operation ever
clears the shutdown flag (stepwise and along any reachable future); from a
shut-down state every `acquire`/`try_acquire` leaves the state unchanged
and reports `PoolShutdown`, no matter how many engines sit available; and
a handle drop is always enabled when a handle is outstanding — returning
its engine to the channel — with the channel send unable to hit a full
channel in any reachable state. -/
theorem pool_shutdown_one_way (cfg : PoolConfigM) :
    (∀ s e s', PoolStep cfg s e s' → s.shutdown = true →
      s'.shutdown = true
      ∧ (e.isAcquire = true →
          s' = s ∧ e.result cfg = .error .poolShutdown))
    ∧ (∀ s s', s.shutdown = true → PoolReach cfg s s' →
        s'.shutdown = true)
    ∧ (∀ s : PoolState, 0 < s.handles →
        PoolStep cfg s .handle_drop
          ⟨s.shutdown, s.created, s.available + 1, s.handles - 1,
           s.engines_created⟩)
    ∧ (∀ s, PoolReach cfg (PoolState.init cfg) s → 0 < s.handles →
        s.available < cfg.size) := by
  have hstep : ∀ s e s', PoolStep cfg s e s' → s.shutdown = true →
      s'.shutdown = true
      ∧ (e.isAcquire = true →
          s' = s ∧ e.result cfg = .error .poolShutdown) := by
    intro s e s' h hsd
    cases h <;>
      simp_all [PoolEvent.isAcquire, PoolEvent.result]
  refine ⟨hstep, fun s s' hsd hr => ?_, fun s hh => ?_, fun s hr hh => ?_⟩
  · induction hr with
    | refl => exact hsd
    | tail _ hs ih => exact (hs.elim fun e he => (hstep _ _ _ he ih).1)
  · exact PoolStep.handle_drop hh
  · have hinv := poolInv_reach hr (poolInv_init cfg)
    obtain ⟨h1, h2, h3⟩ := hinv
    omega

/-- Witness for C6: from the shut-down state of an eager pool of capacity
1 with its engine available, an `acquire` call steps to the same state and
reports `PoolShutdown`. -/
theorem pool_shutdown_one_way_witness :
    (⟨true, 1, 1, 0, 1⟩ : PoolState).shutdown = true
    ∧ PoolEvent.result ⟨1, false⟩ .acquire_shutdown
        = .error .poolShutdown := by
  have h := (pool_shutdown_one_way ⟨1, false⟩).1
    ⟨true, 1, 1, 0, 1⟩ .acquire_shutdown ⟨true, 1, 1, 0, 1⟩
    (PoolStep.acquire_shutdown rfl) rfl
  exact ⟨h.1, (h.2 rfl).2⟩

end FusabiHost
